import Mathlib

/-! Verification development for the goweb edge layer: the password-at-rest
scheme and sign-in handler (auth/pass.go, auth/routes.go), the tracking-cookie
codec (tracker/tracker.go), the admission limiter (limiter/limiter.go) and the
background bot-verification task (limiter/botcheck.go).

Go strings are embedded as lists of characters (all data handled by the code
under scrutiny is ASCII, so Go's byte-level view and the rune-level view
coincide).  External library functions (bcrypt, AES-GCM, xxhash, JSON, base64)
are modelled as idealised computable codecs whose documented contracts they
satisfy; every function of the repository itself is translated statement by
statement from the Go source. -/

namespace Goweb

/-- Go strings are modelled as lists of characters. -/
abbrev Str := List Char

/-- Evaluation of Char.ofNat at a valid code point. -/
theorem toNat_charOfNat {n : Nat} (h : n.isValidChar) : (Char.ofNat n).toNat = n := by
  unfold Char.ofNat
  rw [dif_pos h]
  rfl

/-- Characters are determined by their code points. -/
theorem charEq_of_toNat_eq {a b : Char} (h : a.toNat = b.toNat) : a = b := by
  have ha := Char.ofNat_toNat a
  have hb := Char.ofNat_toNat b
  rw [← ha, ← hb, h]

/-! Character rotation from auth/pass.go.  Go's rune arithmetic on ASCII
characters is code-point arithmetic, written here with Char.ofNat/Char.toNat. -/

/-- rotLower from auth/pass.go: rotate a lower-case letter by 13 positions. -/
def rotLower (r : Char) : Char :=
  if 'm' < r then Char.ofNat (r.toNat - 13) else Char.ofNat (r.toNat + 13)

/-- rotUpper from auth/pass.go: rotate an upper-case letter by 13 positions. -/
def rotUpper (r : Char) : Char :=
  if 'M' < r then Char.ofNat (r.toNat - 13) else Char.ofNat (r.toNat + 13)

/-- rotDigit from auth/pass.go: rotate a digit by 5 positions. -/
def rotDigit (r : Char) : Char :=
  if '5' ≤ r then Char.ofNat (r.toNat - 5) else Char.ofNat (r.toNat + 5)

/-- rot13 from auth/pass.go: rotate letters by 13 within their case, digits by
5, and leave every other character unchanged. -/
def rot13 (r : Char) : Char :=
  if 'a' ≤ r ∧ r ≤ 'z' then rotLower r
  else if 'A' ≤ r ∧ r ≤ 'Z' then rotUpper r
  else if '0' ≤ r ∧ r ≤ '9' then rotDigit r
  else r

/-- Code-point image of rot13, used to reason about the Char-level function. -/
def rot13Nat (n : Nat) : Nat :=
  if 97 ≤ n ∧ n ≤ 122 then (if 109 < n then n - 13 else n + 13)
  else if 65 ≤ n ∧ n ≤ 90 then (if 77 < n then n - 13 else n + 13)
  else if 48 ≤ n ∧ n ≤ 57 then (if 53 ≤ n then n - 5 else n + 5)
  else n

theorem rot13Nat_valid {n : Nat} (h : n.isValidChar) : (rot13Nat n).isValidChar := by
  unfold Nat.isValidChar at h ⊢
  unfold rot13Nat
  split_ifs <;> omega

theorem toNat_rot13 (c : Char) : (rot13 c).toNat = rot13Nat c.toNat := by
  unfold rot13 rot13Nat rotLower rotUpper rotDigit
  by_cases h1 : 97 ≤ c.toNat ∧ c.toNat ≤ 122
  · rw [if_pos h1, if_pos (show 'a' ≤ c ∧ c ≤ 'z' from ⟨h1.1, h1.2⟩)]
    by_cases h2 : 109 < c.toNat
    · rw [if_pos h2, if_pos (show 'm' < c from h2)]
      exact toNat_charOfNat (by unfold Nat.isValidChar; omega)
    · rw [if_neg h2, if_neg (show ¬ 'm' < c from h2)]
      exact toNat_charOfNat (by unfold Nat.isValidChar; omega)
  · rw [if_neg h1, if_neg (show ¬('a' ≤ c ∧ c ≤ 'z') from fun hh => h1 ⟨hh.1, hh.2⟩)]
    by_cases h3 : 65 ≤ c.toNat ∧ c.toNat ≤ 90
    · rw [if_pos h3, if_pos (show 'A' ≤ c ∧ c ≤ 'Z' from ⟨h3.1, h3.2⟩)]
      by_cases h4 : 77 < c.toNat
      · rw [if_pos h4, if_pos (show 'M' < c from h4)]
        exact toNat_charOfNat (by unfold Nat.isValidChar; omega)
      · rw [if_neg h4, if_neg (show ¬ 'M' < c from h4)]
        exact toNat_charOfNat (by unfold Nat.isValidChar; omega)
    · rw [if_neg h3, if_neg (show ¬('A' ≤ c ∧ c ≤ 'Z') from fun hh => h3 ⟨hh.1, hh.2⟩)]
      by_cases h5 : 48 ≤ c.toNat ∧ c.toNat ≤ 57
      · rw [if_pos h5, if_pos (show '0' ≤ c ∧ c ≤ '9' from ⟨h5.1, h5.2⟩)]
        by_cases h6 : 53 ≤ c.toNat
        · rw [if_pos h6, if_pos (show '5' ≤ c from h6)]
          exact toNat_charOfNat (by unfold Nat.isValidChar; omega)
        · rw [if_neg h6, if_neg (show ¬ '5' ≤ c from h6)]
          exact toNat_charOfNat (by unfold Nat.isValidChar; omega)
      · rw [if_neg h5, if_neg (show ¬('0' ≤ c ∧ c ≤ '9') from fun hh => h5 ⟨hh.1, hh.2⟩)]

theorem rot13Nat_rot13Nat (n : Nat) : rot13Nat (rot13Nat n) = n := by
  unfold rot13Nat
  split_ifs <;> omega

/-- rot13 is an involution on characters. -/
theorem rot13_rot13 (c : Char) : rot13 (rot13 c) = c := by
  apply charEq_of_toNat_eq
  rw [toNat_rot13, toNat_rot13, rot13Nat_rot13Nat]

theorem map_rot13_map_rot13 (l : Str) : (l.map rot13).map rot13 = l := by
  rw [List.map_map]
  have h : ∀ a ∈ l, (rot13 ∘ rot13) a = id a := fun a _ => rot13_rot13 a
  rw [List.map_congr_left h, List.map_id]

theorem rot13_ne_dollar {c : Char} (h : c ≠ '$') : rot13 c ≠ '$' := by
  intro hEq
  apply h
  apply charEq_of_toNat_eq
  have h36 : (rot13 c).toNat = 36 := by rw [hEq]; rfl
  rw [toNat_rot13] at h36
  have hc : c.toNat = 36 := by
    revert h36; unfold rot13Nat; split_ifs <;> omega
  rw [show ('$').toNat = 36 from rfl]
  exact hc

theorem not_mem_map_rot13 {l : Str} (h : '$' ∉ l) : '$' ∉ l.map rot13 := by
  intro hm
  rcases List.mem_map.mp hm with ⟨a, ha, hEq⟩
  by_cases hc : a = '$'
  · exact h (hc ▸ ha)
  · exact rot13_ne_dollar hc hEq

/-! Splitting on the dollar separator: helper lemmas for Go's strings.Split,
which is embedded as List.splitOn. -/

theorem splitOn_cons_self {α : Type} [DecidableEq α] (x : α) (xs : List α) :
    (x :: xs).splitOn x = [] :: xs.splitOn x := by
  simp [List.splitOn, List.splitOnP_cons]

theorem splitOn_cons_ne {α : Type} [DecidableEq α] {y x : α} (h : y ≠ x) (xs : List α) :
    (y :: xs).splitOn x = (xs.splitOn x).modifyHead (y :: ·) := by
  simp [List.splitOn, List.splitOnP_cons, h]

theorem splitOn_no_sep {α : Type} [DecidableEq α] {x : α} {xs : List α} (h : x ∉ xs) :
    xs.splitOn x = [xs] := by
  apply List.splitOnP_eq_single
  intro a ha
  simp only [beq_iff_eq]
  intro hEq
  exact h (hEq ▸ ha)

/-! The structural transform of stored bcrypt hashes from auth/pass.go. -/

/-- hashVersion constant from auth/pass.go. -/
def hashVersion : Str := ['1']

/-- alter from auth/pass.go: split the hash on the dollar separator, drop the
leading empty piece, overwrite the cost field with the decoy value 12, rotate
the salt+digest piece, and prepend the internal format version.  Go indexes
the slice unconditionally and would panic when fewer than three pieces remain;
that panic is modelled as none. -/
def alter (hash : Str) : Option Str :=
  match (hash.splitOn '$').drop 1 with
  | p0 :: _p1 :: p2 :: rest =>
      some ('$' :: hashVersion ++ '$' ::
        List.intercalate ['$'] (p0 :: ['1', '2'] :: p2.map rot13 :: rest))
  | _ => none

/-- unalter from auth/pass.go: drop the version and empty leading pieces,
restore the true cost field 04, and rotate the salt+digest piece back. -/
def unalter (hash : Str) : Option Str :=
  match (hash.splitOn '$').drop 2 with
  | p0 :: _p1 :: p2 :: rest =>
      some ('$' :: List.intercalate ['$'] (p0 :: ['0', '4'] :: p2.map rot13 :: rest))
  | _ => none

/-- Shape of a cost-04 bcrypt hash string: the salt+digest body after the
fixed header. -/
def bcryptForm (body : Str) : Str :=
  '$' :: '2' :: 'a' :: '$' :: '0' :: '4' :: '$' :: body

/-- Shape produced by alter from a cost-04 bcrypt hash. -/
def alteredForm (body : Str) : Str :=
  '$' :: '1' :: '$' :: '2' :: 'a' :: '$' :: '1' :: '2' :: '$' :: body

theorem splitOn_bcryptForm {body : Str} (h : '$' ∉ body) :
    (bcryptForm body).splitOn '$' = [[], ['2', 'a'], ['0', '4'], body] := by
  unfold bcryptForm
  rw [splitOn_cons_self, splitOn_cons_ne (by decide), splitOn_cons_ne (by decide),
    splitOn_cons_self, splitOn_cons_ne (by decide), splitOn_cons_ne (by decide),
    splitOn_cons_self, splitOn_no_sep h]
  rfl

theorem splitOn_alteredForm {body : Str} (h : '$' ∉ body) :
    (alteredForm body).splitOn '$' = [[], ['1'], ['2', 'a'], ['1', '2'], body] := by
  unfold alteredForm
  rw [splitOn_cons_self, splitOn_cons_ne (by decide), splitOn_cons_self,
    splitOn_cons_ne (by decide), splitOn_cons_ne (by decide), splitOn_cons_self,
    splitOn_cons_ne (by decide), splitOn_cons_ne (by decide), splitOn_cons_self,
    splitOn_no_sep h]
  rfl

theorem intercalate_three (a b c : Str) :
    List.intercalate ['$'] [a, b, c] = a ++ '$' :: b ++ '$' :: c := by
  simp [List.intercalate]

theorem alter_bcryptForm {body : Str} (h : '$' ∉ body) :
    alter (bcryptForm body) = some (alteredForm (body.map rot13)) := by
  unfold alter
  rw [splitOn_bcryptForm h]
  simp only [List.drop]
  rw [intercalate_three]
  rfl

theorem unalter_alteredForm {body : Str} (h : '$' ∉ body) :
    unalter (alteredForm body) = some (bcryptForm (body.map rot13)) := by
  unfold unalter
  rw [splitOn_alteredForm h]
  simp only [List.drop]
  rw [intercalate_three]
  rfl

theorem unalter_alter {body : Str} (h : '$' ∉ body) :
    alter (bcryptForm body) = some (alteredForm (body.map rot13)) ∧
      unalter (alteredForm (body.map rot13)) = some (bcryptForm body) := by
  refine ⟨alter_bcryptForm h, ?_⟩
  rw [unalter_alteredForm (not_mem_map_rot13 h), map_rot13_map_rot13]

/-! An injective escaping of arbitrary character lists into dollar-free
strings, used by the idealised bcrypt digest model below. -/

def escapeChar (c : Char) : Str :=
  if c = '$' then ['%', '4'] else if c = '%' then ['%', '5'] else [c]

def escape : Str → Str
  | [] => []
  | c :: cs => escapeChar c ++ escape cs

def unescape : Str → Str
  | [] => []
  | [c] => [c]
  | c :: d :: cs =>
    if c = '%' then
      if d = '4' then '$' :: unescape cs
      else if d = '5' then '%' :: unescape cs
      else c :: unescape (d :: cs)
    else c :: unescape (d :: cs)

theorem unescape_escape (s : Str) : unescape (escape s) = s := by
  induction s with
  | nil => rfl
  | cons c cs ih =>
    show unescape (escapeChar c ++ escape cs) = c :: cs
    by_cases h4 : c = '$'
    · subst h4
      rw [show escapeChar '$' ++ escape cs = '%' :: '4' :: escape cs from rfl]
      rw [show unescape ('%' :: '4' :: escape cs) = '$' :: unescape (escape cs) from by
        simp [unescape]]
      rw [ih]
    · by_cases h5 : c = '%'
      · subst h5
        rw [show escapeChar '%' ++ escape cs = '%' :: '5' :: escape cs from rfl]
        rw [show unescape ('%' :: '5' :: escape cs) = '%' :: unescape (escape cs) from by
          simp [unescape]]
        rw [ih]
      · rw [show escapeChar c ++ escape cs = c :: escape cs from by
          simp [escapeChar, h4, h5]]
        cases hcs : escape cs with
        | nil =>
          have hnil : cs = [] := by rw [← ih, hcs]; rfl
          rw [hnil]
          rfl
        | cons d ds =>
          rw [show unescape (c :: d :: ds) = c :: unescape (d :: ds) from by
            simp [unescape, h5]]
          rw [← hcs, ih]

theorem dollar_not_mem_escape (s : Str) : '$' ∉ escape s := by
  induction s with
  | nil => simp [escape]
  | cons c cs ih =>
    simp only [escape]
    intro hm
    rcases List.mem_append.mp hm with hm | hm
    · unfold escapeChar at hm
      split_ifs at hm with h4 h5
      · simp_all
      · simp_all
      · simp only [List.mem_singleton] at hm
        exact h4 hm.symm
    · exact ih hm

theorem escape_inj {a b : Str} (h : escape a = escape b) : a = b := by
  have h2 := congrArg unescape h
  rwa [unescape_escape, unescape_escape] at h2

/-! Idealised model of golang.org/x/crypto/bcrypt. -/

inductive BcryptErr where
  | mismatchedHashAndPassword
  | hashTooShort
  | passwordTooLong
deriving DecidableEq

/-- Idealised bcrypt digest over (salt, cost, password): an injective encoding
of the three inputs into a dollar-free string.  The real digest is
collision-resistant; the model makes it collision-free.  bcrypt keys the hash
on at most 72 password bytes, hence the truncation. -/
def bcryptDigest (salt cost pw : Str) : Str :=
  escape (salt ++ '$' :: cost ++ '$' :: pw.take 72)

/-- Model of bcrypt.GenerateFromPassword at cost 4 (hashCost in auth/pass.go):
produces $2a$04$ followed by the 22-character salt and the digest.  The salt
is passed explicitly (the library draws it at random).  Passwords longer than
72 bytes are rejected (bcrypt.ErrPasswordTooLong). -/
def bcryptGenerateFromPassword (salt pw : Str) : Except BcryptErr Str :=
  if 72 < pw.length then .error .passwordTooLong
  else .ok (bcryptForm (salt ++ bcryptDigest salt ['0', '4'] pw))

/-- Model of bcrypt.CompareHashAndPassword: parse the stored hash into
version, cost and salt+digest body (the salt is the first 22 characters of
the body), recompute the digest for the supplied password under the stored
salt and cost, and compare.  A mismatch is reported as an error, exactly as
the library does. -/
def bcryptCompareHashAndPassword (hash pw : Str) : Except BcryptErr Unit :=
  match hash.splitOn '$' with
  | [[], ver, cost, body] =>
      if ver = ['2', 'a'] ∧ body.drop 22 = bcryptDigest (body.take 22) cost pw then .ok ()
      else .error .mismatchedHashAndPassword
  | _ => .error .hashTooShort

/-! Idealised model of AES-256-GCM as used by encrypt/decrypt in auth/pass.go.
A sealed box authenticates the key and nonce and hides the plaintext; the
repository stores the nonce as a prefix of the ciphertext and base64-encodes
the result (base64 is a bijection and is elided). -/

structure GCMBox where
  key : Str
  nonce : Nat
  plaintext : Str
deriving DecidableEq

structure StoredPass where
  noncePrefix : Nat
  box : GCMBox
deriving DecidableEq

inductive CryptoErr where
  | openAuthFailed
deriving DecidableEq

/-- encrypt from auth/pass.go: seal the secret under the key with a fresh
random nonce (passed explicitly) and store the nonce as a prefix. -/
def encrypt (secret key : Str) (nonce : Nat) : StoredPass :=
  ⟨nonce, ⟨key, nonce, secret⟩⟩

/-- decrypt from auth/pass.go: split off the nonce prefix and open the box;
authenticated decryption fails unless key and nonce match the sealing ones. -/
def decrypt (stored : StoredPass) (key : Str) : Except CryptoErr Str :=
  if stored.box.key = key ∧ stored.box.nonce = stored.noncePrefix then .ok stored.box.plaintext
  else .error .openAuthFailed

/-- Cryptographic material of an Auth instance (auth.go): the password
encryption key and the pepper. -/
structure Auth where
  key : Str
  pepper : Str

inductive GenErr where
  | bcryptFailed (e : BcryptErr)
  | alterPanic
deriving DecidableEq

instance {ε α : Type} [DecidableEq ε] [DecidableEq α] : DecidableEq (Except ε α) := fun a b =>
  match a, b with
  | .ok x, .ok y => if h : x = y then .isTrue (by rw [h]) else .isFalse (by simp [h])
  | .error x, .error y => if h : x = y then .isTrue (by rw [h]) else .isFalse (by simp [h])
  | .ok _, .error _ => .isFalse (by simp)
  | .error _, .ok _ => .isFalse (by simp)

/-- Result of generate: the stored value (or error) plus whether the
randomised 200-250 ms slowDown() sleep was performed on that path. -/
structure GenResult where
  value : Except GenErr StoredPass
  slept : Bool
deriving DecidableEq

/-- generate from auth/pass.go: append the dot and pepper, bcrypt-hash at
cost 4, alter the hash string, encrypt it, and only then slowDown().  Error
paths return before the sleep. -/
def generate (a : Auth) (salt : Str) (nonce : Nat) (pass : Str) : GenResult :=
  let pw := pass ++ '.' :: a.pepper
  match bcryptGenerateFromPassword salt pw with
  | .error e => ⟨.error (.bcryptFailed e), false⟩
  | .ok hashedPass =>
    match alter hashedPass with
    | none => ⟨.error .alterPanic, false⟩
    | some altered => ⟨.ok (encrypt altered a.key nonce), true⟩

inductive CmpErr where
  | decryptFailed (e : CryptoErr)
  | unalterPanic
  | bcryptFailed (e : BcryptErr)
deriving DecidableEq

/-- Result of compare, mirroring Go's (bool, error) pair plus whether the
slowDown() sleep was performed on that path. -/
structure CmpResult where
  ok : Bool
  err : Option CmpErr
  slept : Bool
deriving DecidableEq

/-- compare from auth/pass.go: append the dot and pepper, decrypt the stored
value, unalter it, run bcrypt.CompareHashAndPassword, and only on full success
slowDown() and return true.  Every failure path returns before the sleep. -/
def compare (a : Auth) (stored : StoredPass) (pass : Str) : CmpResult :=
  let pw := pass ++ '.' :: a.pepper
  match decrypt stored a.key with
  | .error e => ⟨false, some (.decryptFailed e), false⟩
  | .ok decodedPass =>
    match unalter decodedPass with
    | none => ⟨false, some .unalterPanic, false⟩
    | some unaltered =>
      match bcryptCompareHashAndPassword unaltered pw with
      | .error e => ⟨false, some (.bcryptFailed e), false⟩
      | .ok _ => ⟨true, none, true⟩

/-! Registration validation (auth package).  The character classes come from
the external goutil/str library and are modelled from the spec: ASCII case
classes, digits, the fixed punctuation set listed in the validation error
message, ASCII whitespace, and an ASCII filter for ToASCII. -/

/-- Modelled from the spec: goutil str.IsLower, an ASCII lower-case letter. -/
def isLower (c : Char) : Bool := decide ('a' ≤ c ∧ c ≤ 'z')

/-- Modelled from the spec: goutil str.IsUpper, an ASCII upper-case letter. -/
def isUpper (c : Char) : Bool := decide ('A' ≤ c ∧ c ≤ 'Z')

/-- Modelled from the spec: goutil str.IsDigit, an ASCII digit. -/
def isDigit (c : Char) : Bool := decide ('0' ≤ c ∧ c ≤ '9')

/-- The fixed punctuation set of the password policy. -/
def specialChars : Str :=
  ['!', '#', '$', '%', '&', '(', ')', '*', '+', ',', '-', '.', '/', ':', ';',
   '<', '=', '>', '?', '@', '^', '_', '\x7b', '|', '\x7d', '~']

/-- Modelled from the spec: goutil str.IsSpecial, membership in the fixed
punctuation set. -/
def isSpecial (c : Char) : Bool := specialChars.contains c

/-- Modelled from the spec: goutil str.IsSpace, ASCII whitespace. -/
def isSpace (c : Char) : Bool :=
  decide (c = ' ' ∨ c = '\t' ∨ c = '\n' ∨ c = '\x0b' ∨ c = '\x0c' ∨ c = '\r')

/-- Modelled from the spec: goutil str.ToASCII; comparing a string with its
ToASCII image detects non-ASCII input. -/
def toASCII (s : Str) : Str := s.filter (fun c => decide (c.toNat < 128))

inductive PassErr where
  | invalidLength
  | invalidChars
  | missingCategory
deriving DecidableEq

/-- Character loop of checkPassword: track the four category flags, reject on
any character outside the allowed classes (whitespace is skipped). -/
def checkPassChars : Str → Bool → Bool → Bool → Bool → Option PassErr
  | [], lwr, upr, num, spl =>
      if !lwr || !upr || !num || !spl then some .missingCategory else none
  | c :: cs, lwr, upr, num, spl =>
      if isLower c then checkPassChars cs true upr num spl
      else if isUpper c then checkPassChars cs lwr true num spl
      else if isDigit c then checkPassChars cs lwr upr true spl
      else if isSpecial c then checkPassChars cs lwr upr num true
      else if isSpace c then checkPassChars cs lwr upr num spl
      else some .invalidChars

/-- checkPassword from the registration validation: length 10-32, ASCII only,
at least one character of each category.  The distinct error messages of the
Go code are abstracted into the PassErr tags. -/
def checkPassword (pass : Str) : Option PassErr :=
  if pass.length < 10 ∨ 32 < pass.length then some .invalidLength
  else if pass ≠ toASCII pass then some .invalidChars
  else checkPassChars pass false false false false

inductive UserErr where
  | invalidLength
  | invalidChars
  | firstNotAlpha
deriving DecidableEq

/-- Character loop of checkUsername: the first character must be alphabetic
and every character alphanumeric. -/
def checkUserChars : Str → Bool → Option UserErr
  | [], _ => none
  | c :: cs, first =>
      if first && !(isLower c) && !(isUpper c) then some .firstNotAlpha
      else if !(isLower c) && !(isUpper c) && !(isDigit c) then some .invalidChars
      else checkUserChars cs false

/-- checkUsername from the registration validation: length 4-20, ASCII only,
alphanumeric with an alphabetic first character. -/
def checkUsername (user : Str) : Option UserErr :=
  if user.length < 4 ∨ 20 < user.length then some .invalidLength
  else if user ≠ toASCII user then some .invalidChars
  else checkUserChars user true

theorem checkPassword_length {p : Str} (h : checkPassword p = none) :
    10 ≤ p.length ∧ p.length ≤ 32 := by
  unfold checkPassword at h
  split_ifs at h with h1 h2
  · push_neg at h1
    omega

/-! Round-trip lemmas for generate and compare. -/

theorem decrypt_encrypt (s k : Str) (n : Nat) : decrypt (encrypt s k n) k = .ok s := by
  unfold encrypt decrypt
  rw [if_pos ⟨rfl, rfl⟩]

theorem dollar_not_mem_saltBody {salt : Str} (hd : '$' ∉ salt) (c pw : Str) :
    '$' ∉ salt ++ bcryptDigest salt c pw := by
  intro hm
  rcases List.mem_append.mp hm with hm | hm
  · exact hd hm
  · exact dollar_not_mem_escape _ hm

theorem generate_eq (a : Auth) (salt : Str) (nonce : Nat) (p : Str)
    (hd : '$' ∉ salt) (hlp : (p ++ '.' :: a.pepper).length ≤ 72) :
    generate a salt nonce p =
      ⟨.ok (encrypt (alteredForm
        ((salt ++ bcryptDigest salt ['0', '4'] (p ++ '.' :: a.pepper)).map rot13)) a.key nonce),
        true⟩ := by
  have hgen : bcryptGenerateFromPassword salt (p ++ '.' :: a.pepper) =
      .ok (bcryptForm (salt ++ bcryptDigest salt ['0', '4'] (p ++ '.' :: a.pepper))) := by
    unfold bcryptGenerateFromPassword
    rw [if_neg (by omega)]
  simp only [generate, hgen, alter_bcryptForm (dollar_not_mem_saltBody hd _ _)]

theorem bcryptDigest_eq_iff (salt c : Str) {pw1 pw2 : Str}
    (h1 : pw1.length ≤ 72) (h2 : pw2.length ≤ 72) :
    bcryptDigest salt c pw1 = bcryptDigest salt c pw2 ↔ pw1 = pw2 := by
  unfold bcryptDigest
  rw [List.take_of_length_le h1, List.take_of_length_le h2]
  constructor
  · intro h
    have h3 := escape_inj h
    simpa using h3
  · intro h
    rw [h]

theorem bcryptCompare_bcryptForm {salt D : Str} (pw : Str)
    (hbody : '$' ∉ salt ++ D) (hs : salt.length = 22) :
    bcryptCompareHashAndPassword (bcryptForm (salt ++ D)) pw =
      if D = bcryptDigest salt ['0', '4'] pw then .ok () else .error .mismatchedHashAndPassword := by
  unfold bcryptCompareHashAndPassword
  rw [splitOn_bcryptForm hbody]
  have ht : (salt ++ D).take 22 = salt := by rw [← hs]; exact List.take_left salt D
  have hdp : (salt ++ D).drop 22 = D := by rw [← hs]; exact List.drop_left salt D
  by_cases hD : D = bcryptDigest salt ['0', '4'] pw
  · subst hD
    simp [ht, hdp]
  · simp [ht, hdp, hD]

theorem compare_generated (a : Auth) (salt : Str) (nonce : Nat) (p q : Str)
    (hs22 : salt.length = 22) (hd : '$' ∉ salt)
    (hlp : (p ++ '.' :: a.pepper).length ≤ 72) (hlq : (q ++ '.' :: a.pepper).length ≤ 72) :
    compare a (encrypt (alteredForm
        ((salt ++ bcryptDigest salt ['0', '4'] (p ++ '.' :: a.pepper)).map rot13)) a.key nonce) q =
      if q = p then ⟨true, none, true⟩
      else ⟨false, some (.bcryptFailed .mismatchedHashAndPassword), false⟩ := by
  have hbody := dollar_not_mem_saltBody hd ['0', '4'] (p ++ '.' :: a.pepper)
  have hun := (unalter_alter hbody).2
  have hc := bcryptCompare_bcryptForm (D := bcryptDigest salt ['0', '4'] (p ++ '.' :: a.pepper))
    (q ++ '.' :: a.pepper) hbody hs22
  by_cases hqp : q = p
  · subst hqp
    simp only [compare, decrypt_encrypt, hun, hc]
    simp
  · have hne : bcryptDigest salt ['0', '4'] (p ++ '.' :: a.pepper) ≠
        bcryptDigest salt ['0', '4'] (q ++ '.' :: a.pepper) := by
      intro hEq
      have hpw := (bcryptDigest_eq_iff salt ['0', '4'] hlp hlq).mp hEq
      exact hqp (List.append_cancel_right hpw).symm
    simp only [compare, decrypt_encrypt, hun, hc]
    rw [if_neg hne, if_neg hqp]

theorem set_ne_self {α : Type} {l : List α} {i : Nat} {c : α} (hi : i < l.length)
    (hne : c ≠ l.get ⟨i, hi⟩) : l.set i c ≠ l := by
  intro hEq
  apply hne
  have hi2 : i < (l.set i c).length := by simpa using hi
  have ha : (l.set i c).getD i c = c := by
    rw [List.getD_eq_getElem _ _ hi2]
    exact List.getElem_set_self hi2
  have hb : l.getD i c = l.get ⟨i, hi⟩ := by
    rw [List.getD_eq_getElem _ _ hi, List.get_eq_getElem]
  have h2 : (l.set i c).getD i c = l.getD i c := by rw [hEq]
  rw [← ha, h2, hb]

/-- C1: for every password meeting the registration password policy (and a
pepper short enough that bcrypt accepts the peppered password), verifying the
password against the stored value produced by generation succeeds, and
verification of any single-character alteration of the password fails.  The
bcrypt salt is the library's random 22-character dollar-free salt. -/
theorem password_roundtrip (a : Auth) (salt : Str) (nonce : Nat) (p : Str)
    (hs22 : salt.length = 22) (hd : '$' ∉ salt)
    (hpol : checkPassword p = none) (hpep : a.pepper.length ≤ 39) :
    ∃ st, (generate a salt nonce p).value = .ok st ∧
      (compare a st p).ok = true ∧ (compare a st p).err = none ∧
      ∀ i c, ∀ hi : i < p.length, c ≠ p.get ⟨i, hi⟩ →
        (compare a st (p.set i c)).ok = false ∧ (compare a st (p.set i c)).err.isSome = true := by
  have hlen := checkPassword_length hpol
  have hlp : (p ++ '.' :: a.pepper).length ≤ 72 := by
    simp only [List.length_append, List.length_cons]
    omega
  refine ⟨encrypt (alteredForm
      ((salt ++ bcryptDigest salt ['0', '4'] (p ++ '.' :: a.pepper)).map rot13)) a.key nonce,
    ?_, ?_, ?_, ?_⟩
  · rw [generate_eq a salt nonce p hd hlp]
  · rw [compare_generated a salt nonce p p hs22 hd hlp hlp, if_pos rfl]
  · rw [compare_generated a salt nonce p p hs22 hd hlp hlp, if_pos rfl]
  · intro i c hi hne
    have hlq : (p.set i c ++ '.' :: a.pepper).length ≤ 72 := by
      simp only [List.length_append, List.length_cons, List.length_set]
      omega
    have hqp : p.set i c ≠ p := set_ne_self hi hne
    rw [compare_generated a salt nonce p (p.set i c) hs22 hd hlp hlq, if_neg hqp]
    exact ⟨rfl, rfl⟩

/-- Witness for C1 at the sample credentials. -/
theorem password_roundtrip_witness :
    ("abcdefghijklmnopqrstuv".data.length = 22 ∧ '$' ∉ "abcdefghijklmnopqrstuv".data ∧
      checkPassword "Str0ng!Pass".data = none ∧ ("pepper".data : Str).length ≤ 39) ∧
    ∃ st, (generate ⟨"0123456789abcdef".data, "pepper".data⟩ "abcdefghijklmnopqrstuv".data 7
        "Str0ng!Pass".data).value = .ok st ∧
      (compare ⟨"0123456789abcdef".data, "pepper".data⟩ st "Str0ng!Pass".data).ok = true ∧
      (compare ⟨"0123456789abcdef".data, "pepper".data⟩ st "Str0ng!Pass".data).err = none ∧
      ∀ i c, ∀ hi : i < "Str0ng!Pass".data.length, c ≠ "Str0ng!Pass".data.get ⟨i, hi⟩ →
        (compare ⟨"0123456789abcdef".data, "pepper".data⟩ st
          ("Str0ng!Pass".data.set i c)).ok = false ∧
        (compare ⟨"0123456789abcdef".data, "pepper".data⟩ st
          ("Str0ng!Pass".data.set i c)).err.isSome = true :=
  ⟨⟨by decide, by decide, by decide, by decide⟩,
    password_roundtrip ⟨"0123456789abcdef".data, "pepper".data⟩ "abcdefghijklmnopqrstuv".data 7
      "Str0ng!Pass".data (by decide) (by decide) (by decide) (by decide)⟩

/-- C9: for every cost-04 bcrypt hash, alter replaces the cost field with the
decoy 12, prefixes the version 1 and rotates the body; unalter exactly inverts
the sequence; and the rotation is an involution that shifts letters by 13
within their case, digits by 5, and fixes everything else. -/
theorem alter_unalter_roundtrip (body : Str) (h : '$' ∉ body) :
    alter (bcryptForm body) = some (alteredForm (body.map rot13)) ∧
    unalter (alteredForm (body.map rot13)) = some (bcryptForm body) ∧
    (∀ c : Char, rot13 (rot13 c) = c) ∧
    (∀ c : Char, 97 ≤ c.toNat → c.toNat ≤ 122 →
      (rot13 c).toNat = 97 + (c.toNat - 97 + 13) % 26) ∧
    (∀ c : Char, 65 ≤ c.toNat → c.toNat ≤ 90 →
      (rot13 c).toNat = 65 + (c.toNat - 65 + 13) % 26) ∧
    (∀ c : Char, 48 ≤ c.toNat → c.toNat ≤ 57 →
      (rot13 c).toNat = 48 + (c.toNat - 48 + 5) % 10) ∧
    (∀ c : Char, ¬(97 ≤ c.toNat ∧ c.toNat ≤ 122) → ¬(65 ≤ c.toNat ∧ c.toNat ≤ 90) →
      ¬(48 ≤ c.toNat ∧ c.toNat ≤ 57) → rot13 c = c) := by
  refine ⟨(unalter_alter h).1, (unalter_alter h).2, rot13_rot13, ?_, ?_, ?_, ?_⟩
  · intro c h1 h2
    rw [toNat_rot13]
    unfold rot13Nat
    split_ifs <;> omega
  · intro c h1 h2
    rw [toNat_rot13]
    unfold rot13Nat
    split_ifs <;> omega
  · intro c h1 h2
    rw [toNat_rot13]
    unfold rot13Nat
    split_ifs <;> omega
  · intro c h1 h2 h3
    unfold rot13
    rw [if_neg (show ¬('a' ≤ c ∧ c ≤ 'z') from fun hh => h1 ⟨hh.1, hh.2⟩),
      if_neg (show ¬('A' ≤ c ∧ c ≤ 'Z') from fun hh => h2 ⟨hh.1, hh.2⟩),
      if_neg (show ¬('0' ≤ c ∧ c ≤ '9') from fun hh => h3 ⟨hh.1, hh.2⟩)]

/-- Witness for C9 at a concrete bcrypt body. -/
theorem alter_unalter_roundtrip_witness :
    ('$' ∉ "OrXsK9./q".data) ∧
    (alter (bcryptForm "OrXsK9./q".data) = some (alteredForm ("OrXsK9./q".data.map rot13)) ∧
     unalter (alteredForm ("OrXsK9./q".data.map rot13)) = some (bcryptForm "OrXsK9./q".data) ∧
     (∀ c : Char, rot13 (rot13 c) = c) ∧
     (∀ c : Char, 97 ≤ c.toNat → c.toNat ≤ 122 →
       (rot13 c).toNat = 97 + (c.toNat - 97 + 13) % 26) ∧
     (∀ c : Char, 65 ≤ c.toNat → c.toNat ≤ 90 →
       (rot13 c).toNat = 65 + (c.toNat - 65 + 13) % 26) ∧
     (∀ c : Char, 48 ≤ c.toNat → c.toNat ≤ 57 →
       (rot13 c).toNat = 48 + (c.toNat - 48 + 5) % 10) ∧
     (∀ c : Char, ¬(97 ≤ c.toNat ∧ c.toNat ≤ 122) → ¬(65 ≤ c.toNat ∧ c.toNat ≤ 90) →
       ¬(48 ≤ c.toNat ∧ c.toNat ≤ 57) → rot13 c = c)) :=
  ⟨by decide, alter_unalter_roundtrip "OrXsK9./q".data (by decide)⟩

/-! Sample credentials used by concrete evaluations. -/

def sampleAuth : Auth := ⟨"0123456789abcdef".data, "pepper".data⟩

def sampleSalt : Str := "abcdefghijklmnopqrstuv".data

def samplePass : Str := "Str0ng!Pass".data

/-- samplePass with one character altered. -/
def sampleWrong : Str := "Str0ng!Pasz".data

def okOr {ε α : Type} (x : Except ε α) (d : α) : α :=
  match x with
  | .ok v => v
  | .error _ => d

/-- The stored value produced by generate at the sample credentials. -/
def sampleStored : StoredPass :=
  okOr (generate sampleAuth sampleSalt 7 samplePass).value ⟨0, ⟨[], 0, []⟩⟩

/-- Counterexample to C8 as stated: a failed verification (wrong password
against a genuinely generated stored value) returns without performing the
randomised slowDown() sleep, while the successful verification performs it. -/
theorem slowdown_skipped_on_failure :
    (generate sampleAuth sampleSalt 7 samplePass).value = .ok sampleStored ∧
    (compare sampleAuth sampleStored sampleWrong).ok = false ∧
    (compare sampleAuth sampleStored sampleWrong).slept = false ∧
    (compare sampleAuth sampleStored samplePass).slept = true := by
  refine ⟨by decide, by decide, by decide, by decide⟩

/-- C8 amended: generate and compare perform the randomised 200-250 ms sleep
exactly on their fully successful paths; every failure path (bcrypt or
encryption error in generate; decryption failure, malformed hash, or password
mismatch in compare) returns without sleeping. -/
theorem slowdown_on_success_only (a : Auth) (st : StoredPass) (salt : Str) (nonce : Nat)
    (p : Str) :
    ((compare a st p).slept = true ↔ (compare a st p).err = none) ∧
    ((generate a salt nonce p).slept = true ↔
      ∃ st2, (generate a salt nonce p).value = .ok st2) := by
  constructor
  · rcases hd : decrypt st a.key with e | d
    · simp [compare, hd]
    · rcases hu : unalter d with _ | u
      · simp [compare, hd, hu]
      · rcases hb : bcryptCompareHashAndPassword u (p ++ '.' :: a.pepper) with e | v
        · simp [compare, hd, hu, hb]
        · simp [compare, hd, hu, hb]
  · rcases hg : bcryptGenerateFromPassword salt (p ++ '.' :: a.pepper) with e | hp
    · simp [generate, hg]
    · rcases ha : alter hp with _ | al
      · simp [generate, hg, ha]
      · simp [generate, hg, ha]

/-! Sign-in handler (auth/routes.go).  The JSON body decode result and the
database lookup result are inputs; the handler's first WriteHeader (or the
implicit 200 on success) is the output. -/

/-- Outcome of the getSecurityInfo database query for the submitted
username: pgx.ErrNoRows, another database error, or the stored password. -/
inductive DBResult where
  | noRows
  | dbErr
  | found (hash : StoredPass)
deriving DecidableEq

/-- signIn from auth/routes.go for a successfully decoded request body: the
HTTP status written for the submitted credentials.  The pre-emptive sign-out,
logging and the asynchronous session insert do not affect the status;
tokensOk models whether createTokens succeeded. -/
def signInStatus (a : Auth) (user pass : Str) (db : DBResult) (tokensOk : Bool) : Nat :=
  if (checkUsername user).isSome || (checkPassword pass).isSome then 401
  else
    match db with
    | .noRows => 401
    | .dbErr => 500
    | .found hash =>
      let r := compare a hash pass
      match r.err with
      | some _ => 500
      | none => if !r.ok then 401 else if !tokensOk then 500 else 200

/-- C2 evaluated on the code: with syntactically valid credentials, an
unknown username is answered with 401 while an existing username with a
non-matching password is answered with 500, because a bcrypt mismatch makes
compare return a non-nil error and signIn maps any compare error to an
internal server error; the unauthorized branch for a false comparison result
is unreachable.  The two statuses differ, refuting the claim. -/
theorem signin_unknown_vs_wrong_password :
    (checkUsername "alice01".data).isNone = true ∧
    (checkPassword sampleWrong).isNone = true ∧
    (generate sampleAuth sampleSalt 7 samplePass).value = .ok sampleStored ∧
    signInStatus sampleAuth "alice01".data sampleWrong .noRows true = 401 ∧
    signInStatus sampleAuth "alice01".data sampleWrong (.found sampleStored) true = 500 ∧
    (compare sampleAuth sampleStored sampleWrong).ok = false ∧
    signInStatus sampleAuth "alice01".data samplePass (.found sampleStored) true = 200 := by
  refine ⟨by decide, by decide, by decide, by decide, by decide, by decide, by decide⟩

/-! Tracker (tracker/tracker.go).  The cookie payload is JSON of the Info
payload together with a 64-bit xxhash signature of the serialised Info,
base64-encoded.  The codec is modelled canonically: the serialised cookie is
a list of byte values whose head is the signature and whose tail is the
canonical serialisation of the Info payload — the two occupy disjoint regions
of the real JSON cookie as well — and base64, a bijection, is elided.  The
hash is modelled as injective (idealised collision-freeness). -/

/-- Info from tracker/tracker.go: visitor id (int64), display name,
authenticated flag, permission scope. -/
structure Info where
  id : Int
  name : Str
  auth : Bool
  scope : List Str
deriving DecidableEq

/-- Injective encoding of an int64 value into a byte value. -/
def encInt (i : Int) : Nat := if 0 ≤ i then 2 * i.toNat else 2 * (-i).toNat - 1

/-- Inverse of encInt. -/
def decInt (n : Nat) : Int :=
  if n % 2 = 0 then ((n / 2 : Nat) : Int) else -(((n + 1) / 2 : Nat) : Int)

theorem decInt_encInt (i : Int) : decInt (encInt i) = i := by
  unfold encInt decInt
  by_cases h : 0 ≤ i
  · rw [if_pos h, if_pos (by omega)]
    have h3 : 2 * i.toNat / 2 = i.toNat := by omega
    rw [h3]
    exact Int.toNat_of_nonneg h
  · rw [if_neg h]
    have hn : 0 < (-i).toNat := by omega
    rw [if_neg (by omega)]
    have h3 : (2 * (-i).toNat - 1 + 1) / 2 = (-i).toNat := by omega
    rw [h3]
    omega

theorem encInt_decInt (n : Nat) : encInt (decInt n) = n := by
  unfold encInt decInt
  by_cases h : n % 2 = 0
  · rw [if_pos h, if_pos (by omega)]
    omega
  · rw [if_neg h, if_neg (by omega)]
    omega

/-- Canonical serialisation of a string field: length prefix then the code
points. -/
def encStr (s : Str) : List Nat := s.length :: s.map Char.toNat

/-- Parser for encStr; accepts exactly its images (length in range, all code
points valid), returning the rest of the input. -/
def parseStr (b : List Nat) : Option (Str × List Nat) :=
  match b with
  | [] => none
  | n :: rest =>
    if n ≤ rest.length ∧ ((rest.take n).all fun v => decide v.isValidChar) = true then
      some ((rest.take n).map Char.ofNat, rest.drop n)
    else none

theorem parseStr_encStr (s : Str) (r : List Nat) : parseStr (encStr s ++ r) = some (s, r) := by
  unfold parseStr encStr
  simp only [List.cons_append]
  have hl : s.length = (s.map Char.toNat).length := by simp
  have htake : (s.map Char.toNat ++ r).take s.length = s.map Char.toNat := by
    rw [hl]
    exact List.take_left (s.map Char.toNat) r
  have hdrop : (s.map Char.toNat ++ r).drop s.length = r := by
    rw [hl]
    exact List.drop_left (s.map Char.toNat) r
  rw [if_pos ⟨by simp, by
    rw [htake, List.all_eq_true]
    intro v hv
    rcases List.mem_map.mp hv with ⟨c, _, rfl⟩
    exact decide_eq_true c.valid⟩]
  rw [htake, hdrop, List.map_map]
  have hid : ∀ c ∈ s, (Char.ofNat ∘ Char.toNat) c = id c := fun c _ => Char.ofNat_toNat c
  rw [List.map_congr_left hid, List.map_id]

theorem parseStr_canonical {b : List Nat} {s : Str} {r : List Nat}
    (h : parseStr b = some (s, r)) : b = encStr s ++ r := by
  match b, h with
  | n :: rest, h =>
    simp only [parseStr] at h
    split_ifs at h with hc
    · simp only [Option.some.injEq, Prod.mk.injEq] at h
      obtain ⟨hs, hr⟩ := h
      have hlen : s.length = n := by
        rw [← hs]
        simp [List.length_take, hc.1]
      have hmap : s.map Char.toNat = rest.take n := by
        rw [← hs, List.map_map]
        have hval : ∀ v ∈ rest.take n, (Char.toNat ∘ Char.ofNat) v = id v := by
          intro v hv
          have := List.all_eq_true.mp hc.2 v hv
          exact toNat_charOfNat (of_decide_eq_true this)
        rw [List.map_congr_left hval, List.map_id]
      rw [show encStr s = n :: rest.take n by rw [encStr, hlen, hmap], ← hr]
      rw [List.cons_append, List.take_append_drop]

/-- Canonical serialisation of a string list: count then the fields. -/
def encStrs : List Str → List Nat
  | [] => []
  | s :: ss => encStr s ++ encStrs ss

/-- Parser reading a given number of encStr fields. -/
def parseStrs : Nat → List Nat → Option (List Str × List Nat)
  | 0, r => some ([], r)
  | k + 1, r =>
    match parseStr r with
    | none => none
    | some (s, r2) =>
      match parseStrs k r2 with
      | none => none
      | some (ss, r3) => some (s :: ss, r3)

theorem parseStrs_encStrs (l : List Str) (r : List Nat) :
    parseStrs l.length (encStrs l ++ r) = some (l, r) := by
  induction l generalizing r with
  | nil => rfl
  | cons s ss ih =>
    simp only [List.length_cons, parseStrs, encStrs, List.append_assoc, parseStr_encStr, ih]

theorem parseStrs_canonical : ∀ {k : Nat} {b : List Nat} {l : List Str} {r : List Nat},
    parseStrs k b = some (l, r) → l.length = k ∧ b = encStrs l ++ r := by
  intro k
  induction k with
  | zero =>
    intro b l r h
    simp only [parseStrs, Option.some.injEq, Prod.mk.injEq] at h
    obtain ⟨hl, hr⟩ := h
    subst hl; subst hr
    exact ⟨rfl, rfl⟩
  | succ k ih =>
    intro b l r h
    simp only [parseStrs] at h
    rcases hp : parseStr b with _ | ⟨s, r2⟩ <;> rw [hp] at h
    · cases h
    · simp only [] at h
      rcases hps : parseStrs k r2 with _ | ⟨ss, r3⟩ <;> rw [hps] at h
      · cases h
      · simp only [Option.some.injEq, Prod.mk.injEq] at h
        obtain ⟨hl, hr⟩ := h
        obtain ⟨hlen, hb2⟩ := ih hps
        subst hl; subst hr
        refine ⟨by simp [hlen], ?_⟩
        rw [parseStr_canonical hp, hb2, encStrs, List.append_assoc]

/-- Model of json.Marshal on Info (goccy/go-json): a canonical injective
serialisation of the four fields. -/
def marshalInfo (v : Info) : List Nat :=
  encInt v.id :: encStr v.name ++ (if v.auth then 1 else 0) :: v.scope.length :: encStrs v.scope

/-- Model of json.Unmarshal into the Info payload: accepts exactly the
canonical serialisations. -/
def unmarshalInfo (b : List Nat) : Option Info :=
  match b with
  | [] => none
  | idn :: rest =>
    match parseStr rest with
    | none => none
    | some (name, rest2) =>
      match rest2 with
      | ab :: cnt :: rest3 =>
        if ab ≤ 1 then
          match parseStrs cnt rest3 with
          | some (scope, []) => some ⟨decInt idn, name, decide (ab = 1), scope⟩
          | _ => none
        else none
      | _ => none

theorem unmarshalInfo_marshalInfo (v : Info) : unmarshalInfo (marshalInfo v) = some v := by
  rcases v with ⟨id, name, auth, scope⟩
  have hps : parseStrs scope.length (encStrs scope) = some (scope, []) := by
    have h2 := parseStrs_encStrs scope []
    rwa [List.append_nil] at h2
  cases auth <;>
    simp [marshalInfo, unmarshalInfo, parseStr_encStr, hps, decInt_encInt]

theorem unmarshalInfo_canonical {b : List Nat} {v : Info}
    (h : unmarshalInfo b = some v) : b = marshalInfo v := by
  match b, h with
  | idn :: rest, h =>
    simp only [unmarshalInfo] at h
    rcases hp : parseStr rest with _ | ⟨name, rest2⟩ <;> rw [hp] at h
    · cases h
    · simp only [] at h
      match rest2, h with
      | ab :: cnt :: rest3, h =>
        simp only [] at h
        split_ifs at h with hab
        rcases hps : parseStrs cnt rest3 with _ | ⟨scope, rest4⟩ <;> rw [hps] at h
        · cases h
        · match rest4, h with
          | [], h =>
            simp only [Option.some.injEq] at h
            obtain ⟨hlen, hr3⟩ := parseStrs_canonical hps
            rw [List.append_nil] at hr3
            subst h
            have hcan := parseStr_canonical hp
            simp only [marshalInfo, encInt_decInt]
            rw [hcan, hr3, hlen]
            have hab2 : ab = 0 ∨ ab = 1 := by omega
            rcases hab2 with rfl | rfl
            · simp
            · simp

/-- Model of xxhash.Sum64: an injective 64-bit hash (idealised
collision-freeness). -/
def sum64 : List Nat → Nat
  | [] => 0
  | n :: ns => Nat.pair n (sum64 ns) + 1

theorem sum64_inj {a b : List Nat} (h : sum64 a = sum64 b) : a = b := by
  induction a generalizing b with
  | nil =>
    cases b with
    | nil => rfl
    | cons m ms => simp only [sum64] at h; omega
  | cons n ns ih =>
    cases b with
    | nil => simp only [sum64] at h; omega
    | cons m ms =>
      simp only [sum64] at h
      have hp : Nat.pair n (sum64 ns) = Nat.pair m (sum64 ms) := by omega
      have h2 := Nat.pair_eq_pair.mp hp
      rw [h2.1, ih h2.2]

/-- createNewTracker from tracker.go: compute the signature of the marshalled
Info, embed both in the payload, and write it as the cookie value. -/
def encodeTracker (v : Info) : List Nat := sum64 (marshalInfo v) :: marshalInfo v

/-- getTrackingCookie plus validateTrackingCookie from tracker.go: decode the
cookie value, recompute the hash of the marshalled Info and compare with the
embedded signature; every failure (absent cookie, undecodable payload,
signature mismatch) yields no identity. -/
def getTrackingCookie (cookie : Option (List Nat)) : Option Info :=
  match cookie with
  | none => none
  | some b =>
    match b with
    | [] => none
    | sig :: rest =>
      match unmarshalInfo rest with
      | none => none
      | some info => if sig = sum64 (marshalInfo info) then some info else none

/-- C6: encoding a TrackingInfo as a tracking cookie and decoding it yields
the identical TrackingInfo, and a cookie whose payload is tampered in any
single byte decodes as absent, never as a different identity. -/
theorem tracker_roundtrip_tamper (v : Info) :
    getTrackingCookie (some (encodeTracker v)) = some v ∧
    ∀ i x, ∀ hi : i < (encodeTracker v).length, x ≠ (encodeTracker v).get ⟨i, hi⟩ →
      getTrackingCookie (some ((encodeTracker v).set i x)) = none := by
  constructor
  · simp [getTrackingCookie, encodeTracker, unmarshalInfo_marshalInfo]
  · intro i x hi hne
    cases i with
    | zero =>
      have hset : (encodeTracker v).set 0 x = x :: marshalInfo v := rfl
      rw [hset]
      have hx : x ≠ sum64 (marshalInfo v) := hne
      simp [getTrackingCookie, unmarshalInfo_marshalInfo, hx]
    | succ j =>
      have hset : (encodeTracker v).set (j + 1) x =
          sum64 (marshalInfo v) :: (marshalInfo v).set j x := rfl
      rw [hset]
      have hj : j < (marshalInfo v).length := by
        have h2 := hi
        simp only [encodeTracker, List.length_cons] at h2
        omega
      have hrest : (marshalInfo v).set j x ≠ marshalInfo v := by
        apply set_ne_self hj
        intro hEq
        exact hne hEq
      rcases hm : unmarshalInfo ((marshalInfo v).set j x) with _ | info2
      · simp [getTrackingCookie, hm]
      · have hcan := unmarshalInfo_canonical hm
        have hsig : sum64 (marshalInfo v) ≠ sum64 (marshalInfo info2) := by
          intro hEq
          have h3 := sum64_inj hEq
          rw [← hcan] at h3
          exact hrest h3.symm
        simp [getTrackingCookie, hm, hsig]

/-- Witness for C6 at a concrete TrackingInfo, tampering byte 1 of the
cookie. -/
theorem tracker_roundtrip_tamper_witness :
    getTrackingCookie (some (encodeTracker ⟨5, "ab".data, true, ["user".data]⟩)) =
      some ⟨5, "ab".data, true, ["user".data]⟩ ∧
    getTrackingCookie (some ((encodeTracker ⟨5, "ab".data, true, ["user".data]⟩).set 1 999)) =
      none :=
  ⟨(tracker_roundtrip_tamper ⟨5, "ab".data, true, ["user".data]⟩).1,
    (tracker_roundtrip_tamper ⟨5, "ab".data, true, ["user".data]⟩).2 1 999 (by decide) (by decide)⟩

/-- Random inputs drawn by createAnonTracker: the 63-bit id and the opaque
display name derived from a second random draw. -/
structure TrackEnv where
  anonId : Nat
  anonName : Str

/-- createAnonTracker from tracker.go: a fresh anonymous Info with a random
id, a random opaque name and authenticated set to false. -/
def createAnonTracker (env : TrackEnv) : Info :=
  ⟨(env.anonId : Int), env.anonName, false, []⟩

/-- Result of GetTrackingInfo: the value returned to the caller and the
cookie written to the response, if any. -/
structure GetTrackingResult where
  ret : Option Info
  written : Option (List Nat)
deriving DecidableEq

/-- GetTrackingInfo from tracker.go: return the decoded Info when the cookie
is present and valid; otherwise write a fresh anonymous tracker cookie and
return nil — the newly synthesized Info is not returned to the caller. -/
def GetTrackingInfo (cookie : Option (List Nat)) (env : TrackEnv) : GetTrackingResult :=
  match getTrackingCookie cookie with
  | some info => ⟨some info, none⟩
  | none => ⟨none, some (encodeTracker (createAnonTracker env))⟩

/-- Counterexample to C7 as stated: on a request without a tracking cookie,
GetTrackingInfo writes the new anonymous cookie but returns nil, not the
newly synthesized TrackingInfo. -/
theorem gettracking_returns_nil :
    (GetTrackingInfo none ⟨5, "anon".data⟩).written =
      some (encodeTracker (createAnonTracker ⟨5, "anon".data⟩)) ∧
    (GetTrackingInfo none ⟨5, "anon".data⟩).ret = none ∧
    (GetTrackingInfo none ⟨5, "anon".data⟩).ret ≠
      some (createAnonTracker ⟨5, "anon".data⟩) := by
  refine ⟨rfl, rfl, by decide⟩

/-- C7 amended: with a present and integrity-valid cookie GetTrackingInfo
returns the decoded TrackingInfo and writes nothing; otherwise it writes a
fresh anonymous tracker cookie (random id, random opaque name, authenticated
false) and returns nil rather than the new TrackingInfo. -/
theorem gettracking_spec (cookie : Option (List Nat)) (env : TrackEnv) :
    (∀ v, getTrackingCookie cookie = some v → GetTrackingInfo cookie env = ⟨some v, none⟩) ∧
    (getTrackingCookie cookie = none →
      GetTrackingInfo cookie env = ⟨none, some (encodeTracker (createAnonTracker env))⟩) := by
  constructor
  · intro v hv
    simp [GetTrackingInfo, hv]
  · intro h
    simp [GetTrackingInfo, h]

/-- Witness for C7's amended statement on both branches. -/
theorem gettracking_spec_witness :
    GetTrackingInfo (some (encodeTracker ⟨6, "cd".data, false, []⟩)) ⟨9, "anon".data⟩ =
      ⟨some ⟨6, "cd".data, false, []⟩, none⟩ ∧
    GetTrackingInfo none ⟨9, "anon".data⟩ =
      ⟨none, some (encodeTracker (createAnonTracker ⟨9, "anon".data⟩))⟩ :=
  ⟨(gettracking_spec (some (encodeTracker ⟨6, "cd".data, false, []⟩)) ⟨9, "anon".data⟩).1
      ⟨6, "cd".data, false, []⟩ (by decide),
    (gettracking_spec none ⟨9, "anon".data⟩).2 (by decide)⟩

/-! Limiter (limiter/limiter.go): the delay/backpressure decision of
visitorDelay and limit.  Durations are nanosecond counts. -/

inductive VisitorType where
  | undefined
  | user
  | goodBot
  | badBot
deriving DecidableEq

/-- Rate from limiter.go: refill interval, burst, and the MaxDelayed ceiling
(a uint64 configuration field, so any value below 2^64). -/
structure Rate where
  interval : Nat
  burst : Nat
  maxDelayed : Nat
deriving DecidableEq

/-- The three rates of a LimitSettings value. -/
structure LimitSettings where
  userRate : Rate
  goodBotRate : Rate
  globalRate : Rate
deriving DecidableEq

/-- Per-visitor state read and written by visitorDelay. -/
structure Visitor where
  vtype : VisitorType
  delayCount : Nat
  currDelays : Int
deriving DecidableEq

/-- Go's conversion of a uint64 value to int64: two's complement wrap. -/
def int64OfUInt64 (n : Nat) : Int := if n < 2 ^ 63 then (n : Int) else (n : Int) - 2 ^ 64

theorem int64OfUInt64_small {n : Nat} (h : n < 2 ^ 63) : int64OfUInt64 n = (n : Int) :=
  if_pos h

/-- The MaxDelayed ceiling selected by visitorDelay's switch on the visitor
type: the configured user or good-bot ceiling, and 1 for every other type. -/
def effectiveMaxDelayed (s : LimitSettings) (t : VisitorType) : Nat :=
  match t with
  | .user => s.userRate.maxDelayed
  | .goodBot => s.goodBotRate.maxDelayed
  | _ => 1

/-- Result of visitorDelay: the error (ErrTooManyRequests or none), whether
the delay was slept out, and the final visitor state. -/
structure VisitorDelayResult where
  err : Option Unit
  slept : Bool
  visitor : Visitor
deriving DecidableEq

/-- visitorDelay from limiter.go for an existing visitor: count the request
(delayCount and currDelays increments), reject with ErrTooManyRequests and no
sleep when the ceiling is positive and the post-increment in-flight count
exceeds the int64 image of the ceiling, otherwise sleep out the delay; the
in-flight count is decremented before returning. -/
def visitorDelay (s : LimitSettings) (v : Visitor) : VisitorDelayResult :=
  let v1 : Visitor := ⟨v.vtype, v.delayCount + 1, v.currDelays + 1⟩
  let curr := v1.currDelays
  let maxDelayed := effectiveMaxDelayed s v.vtype
  let tooMany := 0 < maxDelayed ∧ int64OfUInt64 maxDelayed < curr
  let err : Option Unit := if tooMany then some () else none
  let doSleep : Bool := if tooMany then false else true
  let v2 : Visitor := if 0 < curr then ⟨v1.vtype, v1.delayCount, v1.currDelays - 1⟩ else v1
  ⟨err, doSleep, v2⟩

inductive LimitErr where
  | emptyIP
  | tooManyRequests
deriving DecidableEq

/-- Result of limit: the error, the delays slept against the visitor bucket
and the global bucket, whether the reservation was cancelled, and the final
visitor state. -/
structure LimitOutcome where
  err : Option LimitErr
  visitorSlept : Option Nat
  globalSlept : Option Nat
  cancelled : Bool
  visitor : Option Visitor
deriving DecidableEq

/-- limit from limiter.go: the visitor lookup result (none models the visitor
having been trimmed between creation and the delay), the per-visitor
reservation delay and the optional global reservation delay are inputs.  A
request rejected by visitorDelay cancels its reservation and returns the
error; otherwise the computed delays are slept out and limit returns no
error (the global bucket only ever delays). -/
def limit (s : LimitSettings) (ipEmpty : Bool) (vis : Option Visitor) (delay : Nat)
    (globalPresent : Bool) (globalDelay : Nat) : LimitOutcome :=
  if ipEmpty then ⟨some .emptyIP, none, none, false, vis⟩
  else
    let afterVisitor : Option LimitErr × Option Nat × Bool × Option Visitor :=
      if 0 < delay then
        match vis with
        | none => (none, none, false, none)
        | some v =>
          let r := visitorDelay s v
          match r.err with
          | some _ => (some .tooManyRequests, none, true, some r.visitor)
          | none => (none, some delay, false, some r.visitor)
      else (none, none, false, vis)
    match afterVisitor with
    | (some e, _, cancelled, v2) => ⟨some e, none, none, cancelled, v2⟩
    | (none, vslept, _, v2) =>
      if globalPresent ∧ 0 < globalDelay then ⟨none, vslept, some globalDelay, false, v2⟩
      else ⟨none, vslept, none, false, v2⟩

theorem visitorDelay_reject (s : LimitSettings) (v : Visitor)
    (h : 0 < effectiveMaxDelayed s v.vtype ∧
      int64OfUInt64 (effectiveMaxDelayed s v.vtype) < v.currDelays + 1) :
    (visitorDelay s v).err = some () ∧ (visitorDelay s v).slept = false := by
  constructor <;> simp [visitorDelay, h]

theorem visitorDelay_sleep (s : LimitSettings) (v : Visitor)
    (h : ¬(0 < effectiveMaxDelayed s v.vtype ∧
      int64OfUInt64 (effectiveMaxDelayed s v.vtype) < v.currDelays + 1)) :
    (visitorDelay s v).err = none ∧ (visitorDelay s v).slept = true := by
  constructor <;> simp [visitorDelay, h]

/-- C4 amended: for an admitted request with a positive bucket delay and a
MaxDelayed ceiling below 2^63 (an int64-representable configuration; the
code compares against the int64 image of the uint64 field), the request is
rejected with ErrTooManyRequests, without sleeping and with its reservation
cancelled, exactly when the ceiling is positive and the post-increment
in-flight delay count exceeds it; otherwise the delay is slept out and limit
returns no error. -/
theorem limit_maxdelayed (s : LimitSettings) (v : Visitor) (delay : Nat)
    (gp : Bool) (gd : Nat) (hdelay : 0 < delay)
    (hrep : effectiveMaxDelayed s v.vtype < 2 ^ 63) :
    (0 < effectiveMaxDelayed s v.vtype ∧
        ((effectiveMaxDelayed s v.vtype : Nat) : Int) < v.currDelays + 1 →
      (limit s false (some v) delay gp gd).err = some .tooManyRequests ∧
      (limit s false (some v) delay gp gd).visitorSlept = none ∧
      (limit s false (some v) delay gp gd).globalSlept = none ∧
      (limit s false (some v) delay gp gd).cancelled = true ∧
      (visitorDelay s v).slept = false) ∧
    (¬(0 < effectiveMaxDelayed s v.vtype ∧
        ((effectiveMaxDelayed s v.vtype : Nat) : Int) < v.currDelays + 1) →
      (limit s false (some v) delay gp gd).err = none ∧
      (limit s false (some v) delay gp gd).visitorSlept = some delay ∧
      (limit s false (some v) delay gp gd).cancelled = false ∧
      (visitorDelay s v).slept = true) := by
  constructor
  · intro hc
    have h2 : 0 < effectiveMaxDelayed s v.vtype ∧
        int64OfUInt64 (effectiveMaxDelayed s v.vtype) < v.currDelays + 1 := by
      rw [int64OfUInt64_small hrep]
      exact hc
    obtain ⟨he, hs⟩ := visitorDelay_reject s v h2
    refine ⟨?_, ?_, ?_, ?_, hs⟩ <;> simp [limit, hdelay, he]
  · intro hc
    have h2 : ¬(0 < effectiveMaxDelayed s v.vtype ∧
        int64OfUInt64 (effectiveMaxDelayed s v.vtype) < v.currDelays + 1) := by
      rw [int64OfUInt64_small hrep]
      exact hc
    obtain ⟨he, hs⟩ := visitorDelay_sleep s v h2
    refine ⟨?_, ?_, ?_, hs⟩ <;> by_cases hg : gp = true ∧ 0 < gd <;>
      simp [limit, hdelay, he, hg]

/-- Counterexample to C4 as stated: with MaxDelayed configured to 2^63 the
int64 conversion wraps to a negative ceiling and the very first delayed
request (in-flight count 1, far below the ceiling) is rejected instead of
slept. -/
theorem maxdelayed_wrap_rejects :
    (limit ⟨⟨0, 4, 2 ^ 63⟩, ⟨0, 0, 0⟩, ⟨0, 0, 0⟩⟩ false (some ⟨.user, 0, 0⟩) 1 false 0).err =
      some .tooManyRequests ∧
    ((0 : Int) + 1 ≤ ((2 ^ 63 : Nat) : Int)) ∧
    (0 < (2 ^ 63 : Nat)) := by
  refine ⟨by decide, by decide, by decide⟩

/-- Witness for C4's amended statement on both branches. -/
theorem limit_maxdelayed_witness :
    ((limit ⟨⟨0, 4, 2⟩, ⟨0, 0, 0⟩, ⟨0, 0, 0⟩⟩ false (some ⟨.user, 5, 2⟩) 3 false 0).err =
        some .tooManyRequests ∧
      (limit ⟨⟨0, 4, 2⟩, ⟨0, 0, 0⟩, ⟨0, 0, 0⟩⟩ false (some ⟨.user, 5, 2⟩) 3 false 0).visitorSlept =
        none ∧
      (limit ⟨⟨0, 4, 2⟩, ⟨0, 0, 0⟩, ⟨0, 0, 0⟩⟩ false (some ⟨.user, 5, 2⟩) 3 false 0).globalSlept =
        none ∧
      (limit ⟨⟨0, 4, 2⟩, ⟨0, 0, 0⟩, ⟨0, 0, 0⟩⟩ false (some ⟨.user, 5, 2⟩) 3 false 0).cancelled =
        true ∧
      (visitorDelay ⟨⟨0, 4, 2⟩, ⟨0, 0, 0⟩, ⟨0, 0, 0⟩⟩ ⟨.user, 5, 2⟩).slept = false) ∧
    ((limit ⟨⟨0, 4, 2⟩, ⟨0, 0, 0⟩, ⟨0, 0, 0⟩⟩ false (some ⟨.user, 5, 1⟩) 3 false 0).err = none ∧
      (limit ⟨⟨0, 4, 2⟩, ⟨0, 0, 0⟩, ⟨0, 0, 0⟩⟩ false (some ⟨.user, 5, 1⟩) 3 false 0).visitorSlept =
        some 3 ∧
      (limit ⟨⟨0, 4, 2⟩, ⟨0, 0, 0⟩, ⟨0, 0, 0⟩⟩ false (some ⟨.user, 5, 1⟩) 3 false 0).cancelled =
        false ∧
      (visitorDelay ⟨⟨0, 4, 2⟩, ⟨0, 0, 0⟩, ⟨0, 0, 0⟩⟩ ⟨.user, 5, 1⟩).slept = true) :=
  ⟨(limit_maxdelayed ⟨⟨0, 4, 2⟩, ⟨0, 0, 0⟩, ⟨0, 0, 0⟩⟩ ⟨.user, 5, 2⟩ 3 false 0
      (by decide) (by decide)).1 (by decide),
    (limit_maxdelayed ⟨⟨0, 4, 2⟩, ⟨0, 0, 0⟩, ⟨0, 0, 0⟩⟩ ⟨.user, 5, 1⟩ 3 false 0
      (by decide) (by decide)).2 (by decide)⟩

/-- NewLimiter's settings normalisation (limiter.go): reject a non-positive
user burst; give active global and good-bot rates a nanosecond interval when
unset; default an absent good-bot rate to the user burst and interval (the
MaxDelayed field is not copied). -/
def newLimiterSettings (s : LimitSettings) : Option LimitSettings :=
  if s.userRate.burst ≤ 0 then none
  else
    let g := if 0 < s.globalRate.burst ∧ s.globalRate.interval = 0 then
      { s.globalRate with interval := 1 } else s.globalRate
    let gb1 := if 0 < s.goodBotRate.burst ∧ s.goodBotRate.interval = 0 then
      { s.goodBotRate with interval := 1 } else s.goodBotRate
    let gb2 := if gb1.burst = 0 ∧ gb1.interval = 0 then
      { gb1 with burst := s.userRate.burst, interval := s.userRate.interval } else gb1
    some ⟨s.userRate, gb2, g⟩

/-- Settings passed by NewAuth to the auth limiter (auth.go): user rate burst
4 with MaxDelayed 2, global rate burst 4 with MaxDelayed unset, no good-bot
rate. -/
def authLimiterSettings (userInterval globalInterval : Nat) : LimitSettings :=
  ⟨⟨userInterval, 4, 2⟩, ⟨0, 0, 0⟩, ⟨globalInterval, 4, 0⟩⟩

/-- C10: a zero MaxDelayed ceiling means no ceiling: visitorDelay never
rejects a user or good-bot visitor whose configured ceiling is zero and
always sleeps out the delay; bad-bot and unclassified visitors get the
implicit ceiling 1; and the auth limiter's configuration leaves MaxDelayed
zero for its global rate and for the good-bot rate it inherits from the user
rate. -/
theorem visitorDelay_zero_ceiling (s : LimitSettings) (v : Visitor) (ui gi : Nat) :
    ((v.vtype = .user ∧ s.userRate.maxDelayed = 0) ∨
        (v.vtype = .goodBot ∧ s.goodBotRate.maxDelayed = 0) →
      (visitorDelay s v).err = none ∧ (visitorDelay s v).slept = true) ∧
    ((v.vtype = .undefined ∨ v.vtype = .badBot) → effectiveMaxDelayed s v.vtype = 1) ∧
    (∀ ns, newLimiterSettings (authLimiterSettings ui gi) = some ns →
      ns.userRate.maxDelayed = 2 ∧ ns.goodBotRate.maxDelayed = 0 ∧
        ns.globalRate.maxDelayed = 0) ∧
    (newLimiterSettings (authLimiterSettings ui gi)).isSome = true := by
  refine ⟨?_, ?_, ?_, ?_⟩
  · intro hz
    have hzero : effectiveMaxDelayed s v.vtype = 0 := by
      rcases hz with ⟨ht, hm⟩ | ⟨ht, hm⟩ <;> rw [ht] <;> exact hm
    apply visitorDelay_sleep
    rw [hzero]
    simp
  · intro ht
    rcases ht with ht | ht <;> rw [ht] <;> rfl
  · intro ns h
    unfold newLimiterSettings authLimiterSettings at h
    rw [if_neg (show ¬(4 ≤ 0) by decide)] at h
    simp only [Option.some.injEq] at h
    subst h
    refine ⟨rfl, ?_, ?_⟩ <;> split_ifs <;> rfl
  · unfold newLimiterSettings authLimiterSettings
    rw [if_neg (show ¬(4 ≤ 0) by decide)]
    rfl

/-- Witness for C10 at concrete settings and visitors. -/
theorem visitorDelay_zero_ceiling_witness :
    ((visitorDelay ⟨⟨0, 4, 0⟩, ⟨0, 0, 0⟩, ⟨0, 0, 0⟩⟩ ⟨.user, 9, 50⟩).err = none ∧
      (visitorDelay ⟨⟨0, 4, 0⟩, ⟨0, 0, 0⟩, ⟨0, 0, 0⟩⟩ ⟨.user, 9, 50⟩).slept = true) ∧
    effectiveMaxDelayed ⟨⟨0, 4, 0⟩, ⟨0, 0, 0⟩, ⟨0, 0, 0⟩⟩ .badBot = 1 ∧
    (newLimiterSettings (authLimiterSettings 5 0)).isSome = true :=
  ⟨(visitorDelay_zero_ceiling ⟨⟨0, 4, 0⟩, ⟨0, 0, 0⟩, ⟨0, 0, 0⟩⟩ ⟨.user, 9, 50⟩ 5 0).1
      (Or.inl ⟨rfl, rfl⟩),
    (visitorDelay_zero_ceiling ⟨⟨0, 4, 0⟩, ⟨0, 0, 0⟩, ⟨0, 0, 0⟩⟩ ⟨.badBot, 0, 0⟩ 5 0).2.1
      (Or.inr rfl),
    (visitorDelay_zero_ceiling ⟨⟨0, 4, 0⟩, ⟨0, 0, 0⟩, ⟨0, 0, 0⟩⟩ ⟨.user, 9, 50⟩ 5 0).2.2.2⟩

/-! Bot verification (limiter/botcheck.go).  DNS is an input environment: the
reverse lookup result per attempt (LookupAddr, modelled by the head of the
returned name list) and the forward lookup result per hostname and attempt
(LookupIP, the full address list).  Both retry loops are given explicit fuel;
a none result means the loop is still running after that many iterations.
The 2-second sleeps between retries are counted, not timed. -/

/-- leadMatch sub s: s starts with sub. -/
def leadMatch : Str → Str → Bool
  | [], _ => true
  | _ :: _, [] => false
  | c :: cs, d :: ds => decide (c = d) && leadMatch cs ds

/-- Model of strings.Contains: the second string occurs as a contiguous
substring of the first. -/
def strContains : Str → Str → Bool
  | [], sub => leadMatch sub []
  | c :: cs, sub => leadMatch sub (c :: cs) || strContains cs sub

/-- Model of strings.HasSuffix, used to state the suffix-check property. -/
def strEndsWith (s t : Str) : Bool := leadMatch t.reverse s.reverse

/-- Model of strings.ToLower on ASCII input. -/
def toLowerChar (c : Char) : Char :=
  if 'A' ≤ c ∧ c ≤ 'Z' then Char.ofNat (c.toNat + 32) else c

/-- uaStrings from botcheck.go: crawler name and user-agent signature. -/
def uaStrings : List (Str × Str) :=
  [("Baidu".data, "baiduspider".data),
   ("Bing".data, "bingbot".data),
   ("Google".data, "googlebot".data),
   ("MSN".data, "msnbot".data),
   ("Neeva".data, "neevabot".data),
   ("Qwantify".data, "qwantify".data),
   ("Yahoo".data, "yahoo!".data),
   ("Yandex".data, "yandexbot".data),
   ("Semrush".data, "semrushbot".data)]

/-- validDomains from botcheck.go: trusted crawler domain patterns. -/
def validDomains : List Str :=
  [".crawl.baidu.com.".data, ".crawl.baidu.jp.".data, ".crawl.yahoo.net.".data,
   ".google.com.".data, ".googlebot.com.".data, ".neevabot.com.".data,
   ".qwant.com.".data, ".search.msn.com.".data, ".yandex.com.".data,
   ".yandex.net.".data, ".yandex.ru.".data, ".bot.semrush.com.".data]

/-- Signature scan of checkUserAgent: the first crawler name whose signature
the lower-cased user agent contains. -/
def findUA : List (Str × Str) → Str → Option Str
  | [], _ => none
  | (name, text) :: rest, ual =>
      if strContains ual text then some name else findUA rest ual

/-- checkUserAgent from botcheck.go. -/
def checkUserAgent (ua : Str) : Option Str := findUA uaStrings (ua.map toLowerChar)

/-- checkHostName from botcheck.go: a strings.Contains check of the trusted
domain patterns against the hostname (not a suffix check). -/
def checkHostName (host : Str) : Bool := validDomains.any fun s => strContains host s

/-- DNS environment consumed by the verification task. -/
structure DNSEnv where
  reverse : Nat → Except Unit Str
  forward : Str → Nat → Except Unit (List Str)

/-- getHostNameLoop from botcheck.go, fuel-indexed: retry the reverse lookup,
incrementing the retry counter on every failure, aborting once it passes 3,
and sleeping 2 seconds (counted in the second component) before each retry. -/
def getHostNameLoopAux (env : DNSEnv) : Nat → Nat → Nat → Option (Except Unit Str × Nat)
  | 0, _, _ => none
  | fuel + 1, attempt, retries =>
    match env.reverse attempt with
    | .ok h => some (.ok h, 0)
    | .error e =>
      if 3 < retries + 1 then some (.error e, 0)
      else
        match getHostNameLoopAux env fuel (attempt + 1) (retries + 1) with
        | none => none
        | some (r, s) => some (r, s + 1)

/-- Result of validateIPMatch: the (valid, ip2) pair, a lookup error, or the
panic Go would hit indexing an empty non-error result. -/
inductive IPMatchResult where
  | ok (valid : Bool) (ip2 : Str)
  | err
  | panicked
deriving DecidableEq

/-- validateIPMatch from botcheck.go: forward-resolve the hostname and
compare the first returned address with the visitor's IP. -/
def validateIPMatch (env : DNSEnv) (ip host : Str) (attempt : Nat) : IPMatchResult :=
  match env.forward host attempt with
  | .error _ => .err
  | .ok [] => .panicked
  | .ok (ip2 :: _) => .ok (decide (ip2 = ip)) ip2

/-- validateIPMatchLoop from botcheck.go, fuel-indexed.  The source
initialises retries to 0 and tests retries > 3 before sleeping, but never
increments it, so the abort branch is unreachable and a persistent error
retries forever; the recursion below passes retries through unchanged exactly
as the source does. -/
def validateIPMatchLoopAux (env : DNSEnv) (ip host : Str) :
    Nat → Nat → Nat → Option IPMatchResult
  | 0, _, _ => none
  | fuel + 1, attempt, retries =>
    match validateIPMatch env ip host attempt with
    | .ok v ip2 => some (.ok v ip2)
    | .panicked => some .panicked
    | .err =>
      if 3 < retries then some .err
      else validateIPMatchLoopAux env ip host fuel (attempt + 1) retries

/-- Outcome of the background verification routine. -/
inductive BotCheckOutcome where
  | promoted (name host : Str)
  | notPromoted
  | panicked
deriving DecidableEq

/-- routine from botcheck.go: check the user agent, reverse-resolve the IP
with bounded retries, require a trusted hostname pattern, require the forward
lookup of that hostname to return the original IP first, and only then
promote (insert into the shared good-bot registry and re-create the visitor
as a good bot, upgradeLimit). -/
def routine (env : DNSEnv) (ip ua : Str) (fuelRev fuelFwd : Nat) : Option BotCheckOutcome :=
  match checkUserAgent ua with
  | none => some .notPromoted
  | some name =>
    match getHostNameLoopAux env fuelRev 0 0 with
    | none => none
    | some (.error _, _) => some .notPromoted
    | some (.ok host, _) =>
      if checkHostName host = false then some .notPromoted
      else
        match validateIPMatchLoopAux env ip host fuelFwd 0 0 with
        | none => none
        | some .err => some .notPromoted
        | some .panicked => some .panicked
        | some (.ok valid _) =>
          if valid then some (.promoted name host) else some .notPromoted

/-! Helper lemmas on the two loops. -/

theorem getHostNameLoop_fail (env : DNSEnv) (hrev : ∀ k, env.reverse k = .error ()) :
    ∀ fuel attempt retries, retries ≤ 3 → 4 - retries ≤ fuel →
      getHostNameLoopAux env fuel attempt retries = some (.error (), 3 - retries) := by
  intro fuel
  induction fuel with
  | zero => intro attempt retries h3 hf; omega
  | succ fuel ih =>
    intro attempt retries h3 hf
    simp only [getHostNameLoopAux, hrev attempt]
    by_cases hlast : retries = 3
    · subst hlast
      rw [if_pos (by omega)]
    · rw [if_neg (by omega)]
      rw [ih (attempt + 1) (retries + 1) (by omega) (by omega)]
      simp only [Option.some.injEq, Prod.mk.injEq]
      exact ⟨trivial, by omega⟩

theorem getHostNameLoop_total (env : DNSEnv) :
    ∀ fuel attempt retries, 0 < fuel → 4 - retries ≤ fuel →
      (getHostNameLoopAux env fuel attempt retries).isSome = true := by
  intro fuel
  induction fuel with
  | zero => intro attempt retries h0 hf; omega
  | succ fuel ih =>
    intro attempt retries h0 hf
    simp only [getHostNameLoopAux]
    rcases hr : env.reverse attempt with e | h
    · simp only []
      by_cases habort : 3 < retries + 1
      · rw [if_pos habort]
        rfl
      · rw [if_neg habort]
        have hin := ih (attempt + 1) (retries + 1) (by omega) (by omega)
        rcases hi : getHostNameLoopAux env fuel (attempt + 1) (retries + 1) with _ | ⟨r, s⟩
        · simp [hi] at hin
        · rfl
    · rfl

theorem validateIPMatchLoop_diverges (env : DNSEnv) (ip host : Str)
    (hfwd : ∀ k, env.forward host k = .error ()) :
    ∀ fuel attempt retries, retries ≤ 3 →
      validateIPMatchLoopAux env ip host fuel attempt retries = none := by
  intro fuel
  induction fuel with
  | zero => intro attempt retries h3; rfl
  | succ fuel ih =>
    intro attempt retries h3
    simp only [validateIPMatchLoopAux, validateIPMatch, hfwd attempt]
    rw [if_neg (by omega)]
    exact ih (attempt + 1) retries h3

theorem validateIPMatchLoop_ok (env : DNSEnv) (ip host : Str) :
    ∀ fuel attempt retries v ip2,
      validateIPMatchLoopAux env ip host fuel attempt retries = some (.ok v ip2) →
      ∃ k rest, env.forward host k = .ok (ip2 :: rest) ∧ v = decide (ip2 = ip) := by
  intro fuel
  induction fuel with
  | zero => intro attempt retries v ip2 h; cases h
  | succ fuel ih =>
    intro attempt retries v ip2 h
    simp only [validateIPMatchLoopAux] at h
    rcases hf : env.forward host attempt with e | ips
    · simp only [validateIPMatch, hf] at h
      split_ifs at h with habort
      · cases h
      · exact ih (attempt + 1) retries v ip2 h
    · match ips, hf with
      | [], hf =>
        simp only [validateIPMatch, hf] at h
        cases h
      | iph :: rest, hf =>
        simp only [validateIPMatch, hf, Option.some.injEq, IPMatchResult.ok.injEq] at h
        exact ⟨attempt, rest, by rw [hf, h.2], by rw [← h.2]; exact h.1.symm⟩

/-- C5 evaluated on the code: under persistently failing DNS the reverse
lookup loop gives up after 3 retries and 3 sleeps (and it terminates within
4 - retries iterations for every environment), but the forward lookup loop
never terminates for any amount of fuel, because its retry counter is never
incremented. -/
theorem dns_retry_bounds (env : DNSEnv) (ip host : Str)
    (hrev : ∀ k, env.reverse k = .error ())
    (hfwd : ∀ k, env.forward host k = .error ()) :
    (∀ fuel, 4 ≤ fuel → getHostNameLoopAux env fuel 0 0 = some (.error (), 3)) ∧
    (∀ (env2 : DNSEnv) fuel attempt retries, 0 < fuel → 4 - retries ≤ fuel →
      (getHostNameLoopAux env2 fuel attempt retries).isSome = true) ∧
    (∀ fuel, validateIPMatchLoopAux env ip host fuel 0 0 = none) := by
  refine ⟨?_, ?_, ?_⟩
  · intro fuel hf
    exact getHostNameLoop_fail env hrev fuel 0 0 (by omega) (by omega)
  · intro env2 fuel attempt retries h0 hf
    exact getHostNameLoop_total env2 fuel attempt retries h0 hf
  · intro fuel
    exact validateIPMatchLoop_diverges env ip host hfwd fuel 0 0 (by omega)

/-- Witness for C5 under a concretely failing DNS environment. -/
theorem dns_retry_bounds_witness :
    getHostNameLoopAux ⟨fun _ => .error (), fun _ _ => .error ()⟩ 4 0 0 =
      some (.error (), 3) ∧
    validateIPMatchLoopAux ⟨fun _ => .error (), fun _ _ => .error ()⟩
      "1.2.3.4".data "h.example.".data 50 0 0 = none :=
  ⟨(dns_retry_bounds ⟨fun _ => .error (), fun _ _ => .error ()⟩ "1.2.3.4".data
      "h.example.".data (fun _ => rfl) (fun _ => rfl)).1 4 (by omega),
    (dns_retry_bounds ⟨fun _ => .error (), fun _ _ => .error ()⟩ "1.2.3.4".data
      "h.example.".data (fun _ => rfl) (fun _ => rfl)).2.2 50⟩

/-- C3 amended: a visitor is promoted to the good-bot classification only if
its user agent contains a known crawler signature, the reverse-resolved
hostname contains (strings.Contains, not a suffix match) one of the trusted
crawler domain patterns, and the first address returned by the forward lookup
of that hostname equals the original IP; in particular, whenever every
forward lookup answer has a first address different from the IP, promotion
does not occur. -/
theorem bot_promotion_conditions :
    (∀ (env : DNSEnv) (ip ua : Str) (fuelRev fuelFwd : Nat) (name host : Str),
      routine env ip ua fuelRev fuelFwd = some (.promoted name host) →
        checkUserAgent ua = some name ∧
        (∃ sleeps, getHostNameLoopAux env fuelRev 0 0 = some (.ok host, sleeps)) ∧
        checkHostName host = true ∧
        (∃ k rest, env.forward host k = .ok (ip :: rest))) ∧
    (∀ (env : DNSEnv) (ip ua : Str) (fuelRev fuelFwd : Nat) (name host : Str),
      (∀ k xs, env.forward host k = .ok xs → xs.head? ≠ some ip) →
      routine env ip ua fuelRev fuelFwd ≠ some (.promoted name host)) := by
  have part1 : ∀ (env : DNSEnv) (ip ua : Str) (fuelRev fuelFwd : Nat) (name host : Str),
      routine env ip ua fuelRev fuelFwd = some (.promoted name host) →
        checkUserAgent ua = some name ∧
        (∃ sleeps, getHostNameLoopAux env fuelRev 0 0 = some (.ok host, sleeps)) ∧
        checkHostName host = true ∧
        (∃ k rest, env.forward host k = .ok (ip :: rest)) := by
    intro env ip ua fuelRev fuelFwd name host h
    unfold routine at h
    rcases hua : checkUserAgent ua with _ | n <;> rw [hua] at h
    · cases h
    · simp only [] at h
      rcases hloop : getHostNameLoopAux env fuelRev 0 0 with _ | ⟨res, sleeps⟩ <;>
        rw [hloop] at h
      · cases h
      · rcases res with e | h0
        · cases h
        · simp only [] at h
          split_ifs at h with hhost
          · cases h
          · rcases hv : validateIPMatchLoopAux env ip h0 fuelFwd 0 0 with _ | vres <;> rw [hv] at h
            · cases h
            · rcases vres with ⟨valid, ip2⟩ | _ | _
              · simp only [] at h
                split_ifs at h with hvalid
                · simp only [Option.some.injEq, BotCheckOutcome.promoted.injEq] at h
                  obtain ⟨hn, hh⟩ := h
                  subst hn; subst hh
                  refine ⟨rfl, ⟨sleeps, rfl⟩, ?_, ?_⟩
                  · rcases hb : checkHostName h0 with _ | _
                    · exact absurd hb hhost
                    · rfl
                  · obtain ⟨k, rest, hf, hdec⟩ := validateIPMatchLoop_ok env ip h0
                      fuelFwd 0 0 valid ip2 hv
                    have hip : ip2 = ip := by
                      rw [hvalid] at hdec
                      exact of_decide_eq_true hdec.symm
                    subst hip
                    exact ⟨k, rest, hf⟩
                · cases h
              · cases h
              · cases h
  refine ⟨part1, ?_⟩
  intro env ip ua fuelRev fuelFwd name host hmismatch hr
  obtain ⟨_, _, _, ⟨k, rest, hf⟩⟩ := part1 env ip ua fuelRev fuelFwd name host hr
  exact hmismatch k (ip :: rest) hf rfl

/-- DNS environment of the C3 counterexample: the reverse lookup yields a
hostname that contains a trusted pattern without ending in it, and the
forward lookup confirms the original IP. -/
def botEnvContains : DNSEnv :=
  ⟨fun _ => .ok "x.googlebot.com.evil.".data, fun _ _ => .ok ["1.2.3.4".data]⟩

/-- DNS environment whose forward lookup returns a different IP. -/
def botEnvMismatch : DNSEnv :=
  ⟨fun _ => .ok "x.googlebot.com.evil.".data, fun _ _ => .ok ["9.9.9.9".data]⟩

/-- Counterexample to C3 as stated: the code promotes a visitor whose
reverse-resolved hostname merely contains a trusted domain pattern without
ending in it, because checkHostName uses strings.Contains rather than a
suffix check. -/
theorem bot_promotion_not_suffix :
    routine botEnvContains "1.2.3.4".data "Googlebot/2.1".data 1 1 =
      some (.promoted "Google".data "x.googlebot.com.evil.".data) ∧
    validDomains.all (fun d => !(strEndsWith "x.googlebot.com.evil.".data d)) = true ∧
    checkHostName "x.googlebot.com.evil.".data = true := by
  refine ⟨by decide, by decide, by decide⟩

/-- Witness for C3's amended statement: the necessary conditions extracted
from a concrete promotion run, and no promotion under a mismatching forward
lookup. -/
theorem bot_promotion_conditions_witness :
    (checkUserAgent "Googlebot/2.1".data = some "Google".data ∧
      (∃ sleeps, getHostNameLoopAux botEnvContains 1 0 0 =
        some (.ok "x.googlebot.com.evil.".data, sleeps)) ∧
      checkHostName "x.googlebot.com.evil.".data = true ∧
      (∃ k rest, botEnvContains.forward "x.googlebot.com.evil.".data k =
        .ok ("1.2.3.4".data :: rest))) ∧
    routine botEnvMismatch "1.2.3.4".data "Googlebot/2.1".data 1 1 ≠
      some (.promoted "Google".data "x.googlebot.com.evil.".data) :=
  ⟨bot_promotion_conditions.1 botEnvContains "1.2.3.4".data "Googlebot/2.1".data 1 1
      "Google".data "x.googlebot.com.evil.".data (by decide),
    bot_promotion_conditions.2 botEnvMismatch "1.2.3.4".data "Googlebot/2.1".data 1 1
      "Google".data "x.googlebot.com.evil.".data
      (by
        intro k xs hf
        have hxs : ["9.9.9.9".data] = xs := by injection hf
        rw [← hxs]
        decide)⟩

end Goweb
